import Mathlib

/-!
Verification of the rdata serialization library (Python) against its
natural-language specification, via a shallow embedding in Lean 4.

The embedding follows the source files:
- `rdata/conversion/to_r.py`   (Python → R object conversion)
- `rdata/io/xdr.py`            (XDR/binary codec primitives)
- `rdata/io/ascii.py`          (ASCII/text codec primitives)
- `rdata/unparser/__init__.py` (file-level unparse entry points)

Python byte strings are modelled as `List Nat` (each element < 256),
text streams as `List Nat` of character codes.  IEEE doubles are
modelled by `RDouble`, carrying the integer value: every double that
the verified properties manipulate is an exact integral double, so no
floating-point rounding behaviour is involved.  Exceptions raised by
the Python code (assert, ValueError, TypeError, NotImplementedError)
are modelled by `Except Err`.
-/

set_option maxHeartbeats 1000000

namespace RDataSpec

/-- Model of an IEEE double restricted to exact integral values
(the only doubles occurring in the verified properties). -/
structure RDouble where
  val : Int
deriving DecidableEq, Repr

/-- The R object type tags used by `rdata/conversion/to_r.py`
(subset of `RObjectType` from `rdata.parser`). -/
inductive RObjectType where
  | SYM
  | LIST
  | LANG
  | CHAR
  | LGL
  | INT
  | REAL
  | CPLX
  | STR
  | VEC
  | EXPR
  | ALTREP
  | NILVALUE
  | REF
deriving DecidableEq, Repr

/-- Numeric wire value of each type tag (`RObjectType(...).value` in Python). -/
def RObjectType.value : RObjectType → Int
  | .SYM => 1
  | .LIST => 2
  | .LANG => 6
  | .CHAR => 9
  | .LGL => 10
  | .INT => 13
  | .REAL => 14
  | .CPLX => 15
  | .STR => 16
  | .VEC => 19
  | .EXPR => 20
  | .ALTREP => 238
  | .NILVALUE => 254
  | .REF => 255

/-- `RObjectInfo`: the node header. -/
structure RObjectInfo where
  type : RObjectType
  object : Bool
  attributes : Bool
  tag : Bool
  gp : Nat
  reference : Nat
deriving DecidableEq, Repr

mutual

/-- `RObject`: header, type-dependent payload, optional attributes,
optional tag, and (for back-references) the referenced node. -/
inductive RObject where
  | mk (info : RObjectInfo) (value : RValue) (attributes : Option RObject)
      (tag : Option RObject) (referenced_object : Option RObject)

/-- The type-dependent payload of an `RObject` (Python `Any`); one
constructor per payload shape occurring in `to_r.py`.  Masked numpy
arrays are modelled element-wise: `none` is a masked element. -/
inductive RValue where
  | vNone
  | vBytes (data : List Nat)
  | vBools (data : List (Option Bool))
  | vInts (data : List (Option Int))
  | vReals (data : List RDouble)
  | vCplxs (data : List (RDouble × RDouble))
  | vObj (obj : RObject)
  | vObjs (elements : List RObject)
  | vPair (car : RObject) (cdr : RObject)
  | vAltrep (description : RObject) (state : RObject) (attr : RObject)

end

def RObject.info : RObject → RObjectInfo
  | .mk i _ _ _ _ => i

def RObject.value : RObject → RValue
  | .mk _ v _ _ _ => v

def RObject.attributes : RObject → Option RObject
  | .mk _ _ a _ _ => a

def RObject.tag : RObject → Option RObject
  | .mk _ _ _ t _ => t

def RObject.referenced_object : RObject → Option RObject
  | .mk _ _ _ _ r => r

/-- Exceptions raised by the Python code.  `fuelOut` is an artifact of
the embedding (recursion fuel), never reached in the proofs below. -/
inductive Err where
  | assertionError
  | valueError (msg : String)
  | typeError (msg : String)
  | notImplementedError (msg : String)
  | unsupportedFeature (msg : String)
  | keyError (msg : String)
  | overflowError (msg : String)
  | fuelOut
deriving DecidableEq, Repr

/-- `build_r_object` (to_r.py lines 281–330): builds an `RObject` after
asserting the chained comparison
`(reference_id == 0) == (referenced_object is None) == (r_type != RObjectType.REF)`. -/
def build_r_object (r_type : RObjectType) (value : RValue) (is_object : Bool)
    (attributes : Option RObject) (tag : Option RObject) (gp : Nat)
    (reference : Nat × Option RObject) : Except Err RObject :=
  let reference_id := reference.1
  let referenced_object := reference.2
  if ((reference_id = 0) ↔ referenced_object.isNone = true) ∧
      (referenced_object.isNone = true ↔ r_type ≠ RObjectType.REF) then
    .ok (.mk
      { type := r_type, object := is_object, attributes := attributes.isSome,
        tag := tag.isSome, gp := gp, reference := reference_id }
      value attributes tag referenced_object)
  else
    .error .assertionError

/-- R's missing-integer sentinel `R_INT_NA = -2**31` (xdr.py line 23). -/
def R_INT_NA : Int := -(2 : Int) ^ 31

/-- Decode 4 bytes as a big-endian signed 32-bit integer
(the element decoding performed by `np.frombuffer(..., dtype('>i4'))`
in `ParserXDR._parse_array_values`). -/
def decodeInt32BE (b0 b1 b2 b3 : Nat) : Int :=
  let u : Nat := b0 % 256 * 2 ^ 24 + b1 % 256 * 2 ^ 16 + b2 % 256 * 2 ^ 8 + b3 % 256
  if u < 2 ^ 31 then (u : Int) else (u : Int) - 2 ^ 32

/-- Encode a signed 32-bit integer as 4 big-endian bytes
(the element encoding performed by `array.astype('>i4')` plus a raw
write in `WriterXDR.__write_array_values`). -/
def encodeInt32BE (v : Int) : List Nat :=
  let u : Nat := (v % 2 ^ 32).toNat
  [u / 2 ^ 24 % 256, u / 2 ^ 16 % 256, u / 2 ^ 8 % 256, u % 256]

/-- Split a byte stream into consecutive big-endian int32 values
(`np.frombuffer` over the whole buffer). -/
def bytesToInt32List : List Nat → List Int
  | b0 :: b1 :: b2 :: b3 :: rest => decodeInt32BE b0 b1 b2 b3 :: bytesToInt32List rest
  | _ => []

/-- `ParserXDR.parse_nullable_int_array` (xdr.py lines 73–89), applied to
the raw value bytes: each element whose decoded value equals `R_INT_NA`
becomes masked (`none`); all other elements are kept (`some v`).
(The Python code stores `fill_value` in masked slots of the data array
and attaches the boolean mask; `Option Int` models exactly the
(data, mask) pairs observable through the mask.) -/
def parse_nullable_int_array (payload : List Nat) : List (Option Int) :=
  (bytesToInt32List payload).map (fun v => if v = R_INT_NA then none else some v)

/-- `flatten_nullable_int_array` (xdr.py lines 107–113): replace every
masked element by `R_INT_NA`, keep unmasked values unchanged. -/
def flatten_nullable_int_array (array : List (Option Int)) : List Int :=
  array.map (fun x => match x with | none => R_INT_NA | some v => v)

/-- `WriterXDR.write_nullable_int_array` (xdr.py lines 164–166), value
bytes only: flatten the mask, then emit each element as big-endian int32. -/
def write_nullable_int_array (array : List (Option Int)) : List Nat :=
  (flatten_nullable_int_array array).flatMap encodeInt32BE

/-- The 4-byte group at index `i` of a byte stream. -/
def chunk4 (payload : List Nat) (i : Nat) : List Nat :=
  (payload.drop (4 * i)).take 4

theorem encodeInt32BE_decodeInt32BE (b0 b1 b2 b3 : Nat)
    (h0 : b0 < 256) (h1 : b1 < 256) (h2 : b2 < 256) (h3 : b3 < 256) :
    encodeInt32BE (decodeInt32BE b0 b1 b2 b3) = [b0, b1, b2, b3] := by
  unfold encodeInt32BE decodeInt32BE
  norm_num
  split <;> refine ⟨by omega, by omega, by omega, by omega⟩

theorem decodeInt32BE_eq_na_iff (b0 b1 b2 b3 : Nat)
    (h0 : b0 < 256) (h1 : b1 < 256) (h2 : b2 < 256) (h3 : b3 < 256) :
    decodeInt32BE b0 b1 b2 b3 = R_INT_NA ↔ b0 = 128 ∧ b1 = 0 ∧ b2 = 0 ∧ b3 = 0 := by
  unfold decodeInt32BE R_INT_NA
  norm_num
  split <;> omega

theorem parse_nia_cons (b0 b1 b2 b3 : Nat) (rest : List Nat) :
    parse_nullable_int_array (b0 :: b1 :: b2 :: b3 :: rest) =
      (if decodeInt32BE b0 b1 b2 b3 = R_INT_NA then none
        else some (decodeInt32BE b0 b1 b2 b3)) :: parse_nullable_int_array rest := by
  simp [parse_nullable_int_array, bytesToInt32List]

theorem write_nia_cons (x : Option Int) (arr : List (Option Int)) :
    write_nullable_int_array (x :: arr) =
      encodeInt32BE (match x with | none => R_INT_NA | some v => v) ++
        write_nullable_int_array arr := by
  simp [write_nullable_int_array, flatten_nullable_int_array]

theorem write_parse_nullable_int_array :
    ∀ payload : List Nat, (∀ b ∈ payload, b < 256) → payload.length % 4 = 0 →
      write_nullable_int_array (parse_nullable_int_array payload) = payload
  | b0 :: b1 :: b2 :: b3 :: rest, hb, hlen => by
    have h0 : b0 < 256 := hb b0 (by simp)
    have h1 : b1 < 256 := hb b1 (by simp)
    have h2 : b2 < 256 := hb b2 (by simp)
    have h3 : b3 < 256 := hb b3 (by simp)
    have hrest : write_nullable_int_array (parse_nullable_int_array rest) = rest :=
      write_parse_nullable_int_array rest
        (fun b hm => hb b (by simp [hm]))
        (by simp only [List.length_cons] at hlen; omega)
    rw [parse_nia_cons]
    by_cases hna : decodeInt32BE b0 b1 b2 b3 = R_INT_NA
    · rw [if_pos hna, write_nia_cons, hrest, ← hna,
        encodeInt32BE_decodeInt32BE b0 b1 b2 b3 h0 h1 h2 h3]
      rfl
    · rw [if_neg hna, write_nia_cons, hrest]
      show encodeInt32BE (decodeInt32BE b0 b1 b2 b3) ++ rest = _
      rw [encodeInt32BE_decodeInt32BE b0 b1 b2 b3 h0 h1 h2 h3]
      rfl
  | [], _, _ => rfl
  | [_], _, hl => by simp at hl
  | [_, _], _, hl => by simp at hl
  | [_, _, _], _, hl => by simp at hl

theorem parse_nia_not_na :
    ∀ payload : List Nat, ∀ (i : Nat) (v : Int),
      (parse_nullable_int_array payload)[i]? = some (some v) → v ≠ R_INT_NA
  | b0 :: b1 :: b2 :: b3 :: rest, i, v => by
    rw [parse_nia_cons]
    match i with
    | 0 =>
      intro hv
      simp only [List.getElem?_cons_zero, Option.some.injEq] at hv
      split at hv
      · exact absurd hv (by simp)
      · rename_i hne
        intro hveq
        apply hne
        rw [Option.some.injEq] at hv
        rw [hv, hveq]
    | i + 1 =>
      intro hv
      exact parse_nia_not_na rest i v (by simpa using hv)
  | [], i, v => by simp [parse_nullable_int_array, bytesToInt32List]
  | [a], i, v => by simp [parse_nullable_int_array, bytesToInt32List]
  | [a, b], i, v => by simp [parse_nullable_int_array, bytesToInt32List]
  | [a, b, c], i, v => by simp [parse_nullable_int_array, bytesToInt32List]

theorem parse_nia_none_iff :
    ∀ payload : List Nat, (∀ b ∈ payload, b < 256) →
      ∀ i : Nat, i < (parse_nullable_int_array payload).length →
        ((parse_nullable_int_array payload)[i]? = some none ↔
          chunk4 payload i = [128, 0, 0, 0])
  | b0 :: b1 :: b2 :: b3 :: rest, hb, i, hi => by
    have h0 : b0 < 256 := hb b0 (by simp)
    have h1 : b1 < 256 := hb b1 (by simp)
    have h2 : b2 < 256 := hb b2 (by simp)
    have h3 : b3 < 256 := hb b3 (by simp)
    rw [parse_nia_cons]
    match i with
    | 0 =>
      simp only [List.getElem?_cons_zero, Option.some.injEq, chunk4, Nat.mul_zero,
        List.drop_zero]
      rw [show ((b0 :: b1 :: b2 :: b3 :: rest).take 4) = [b0, b1, b2, b3] from rfl,
        show ([128, 0, 0, 0] : List Nat) = [128, 0, 0, 0] from rfl]
      constructor
      · intro hsome
        split at hsome
        · rename_i hna
          have := (decodeInt32BE_eq_na_iff b0 b1 b2 b3 h0 h1 h2 h3).mp hna
          simp [this.1, this.2.1, this.2.2.1, this.2.2.2]
        · exact absurd hsome (by simp)
      · intro hbytes
        have hb0 : b0 = 128 ∧ b1 = 0 ∧ b2 = 0 ∧ b3 = 0 := by
          simpa using hbytes
        have hna := (decodeInt32BE_eq_na_iff b0 b1 b2 b3 h0 h1 h2 h3).mpr hb0
        simp [hna]
    | i + 1 =>
      have hchunk : chunk4 (b0 :: b1 :: b2 :: b3 :: rest) (i + 1) = chunk4 rest i := by
        simp only [chunk4]
        rw [show 4 * (i + 1) = 4 * i + 4 by ring]
        rfl
      rw [hchunk, List.getElem?_cons_succ]
      refine parse_nia_none_iff rest (fun b hm => hb b (by simp [hm])) i ?_
      rw [parse_nia_cons] at hi
      simpa using hi
  | [], _, i, hi => by simp [parse_nullable_int_array, bytesToInt32List] at hi
  | [a], _, i, hi => by simp [parse_nullable_int_array, bytesToInt32List] at hi
  | [a, b], _, i, hi => by simp [parse_nullable_int_array, bytesToInt32List] at hi
  | [a, b, c], _, i, hi => by simp [parse_nullable_int_array, bytesToInt32List] at hi

/-- C2: in the XDR codec, `parse_nullable_int_array` marks an element
missing exactly when its big-endian int32 group is the sentinel bytes
`0x80 0x00 0x00 0x00` (value `-2^31`); unmasked elements never carry the
sentinel value; and `write_nullable_int_array` re-encodes the parsed
array (masked slots as the sentinel, other values unchanged) to the
identical bytes. -/
theorem nullable_int_array_missing_sentinel (payload : List Nat)
    (hb : ∀ b ∈ payload, b < 256) (hlen : payload.length % 4 = 0) :
    (∀ (i : Nat) (v : Int),
      (parse_nullable_int_array payload)[i]? = some (some v) → v ≠ R_INT_NA) ∧
    (∀ i : Nat, i < (parse_nullable_int_array payload).length →
      ((parse_nullable_int_array payload)[i]? = some none ↔
        chunk4 payload i = [128, 0, 0, 0])) ∧
    write_nullable_int_array (parse_nullable_int_array payload) = payload :=
  ⟨parse_nia_not_na payload, parse_nia_none_iff payload hb,
    write_parse_nullable_int_array payload hb hlen⟩

theorem nullable_int_array_missing_sentinel_witness :
    write_nullable_int_array
      (parse_nullable_int_array [0, 0, 0, 5, 128, 0, 0, 0]) =
      [0, 0, 0, 5, 128, 0, 0, 0] :=
  (nullable_int_array_missing_sentinel [0, 0, 0, 5, 128, 0, 0, 0]
    (by decide) (by decide)).2.2

/-- C6: `build_r_object` succeeds exactly on the argument combinations
satisfying the back-reference invariant — `reference_id ≠ 0` iff the type
is `REF` iff a referenced target is present — and every node it returns
satisfies that invariant in its header and `referenced_object` field. -/
theorem build_r_object_invariant (r_type : RObjectType) (value : RValue)
    (is_object : Bool) (attrs tg : Option RObject) (gp : Nat)
    (reference : Nat × Option RObject) :
    ((∃ obj, build_r_object r_type value is_object attrs tg gp reference = .ok obj) ↔
      ((reference.1 ≠ 0 ↔ r_type = RObjectType.REF) ∧
        (reference.1 ≠ 0 ↔ reference.2.isSome = true))) ∧
    (∀ obj, build_r_object r_type value is_object attrs tg gp reference = .ok obj →
      ((obj.info.reference ≠ 0 ↔ obj.info.type = RObjectType.REF) ∧
        (obj.info.reference ≠ 0 ↔ obj.referenced_object.isSome = true))) := by
  obtain ⟨rid, robj⟩ := reference
  simp only [build_r_object]
  constructor
  · constructor
    · rintro ⟨obj, hobj⟩
      split at hobj
      · rename_i hcond
        cases robj <;> simp_all
      · exact absurd hobj (by simp)
    · intro hinv
      have hcond : (rid = 0 ↔ robj.isNone = true) ∧
          (robj.isNone = true ↔ r_type ≠ RObjectType.REF) := by
        cases robj <;> simp_all <;> tauto
      exact ⟨_, if_pos hcond⟩
  · intro obj hobj
    split at hobj
    · rename_i hcond
      have : obj = .mk
          { type := r_type, object := is_object, attributes := attrs.isSome,
            tag := tg.isSome, gp := gp, reference := rid }
          value attrs tg robj := by
        simpa using hobj.symm
      subst this
      simp only [RObject.info, RObject.referenced_object]
      cases robj <;> simp_all
    · exact absurd hobj (by simp)

theorem build_r_object_invariant_witness :
    ∃ obj,
      build_r_object RObjectType.NILVALUE RValue.vNone false none none 0 (0, none) =
        .ok obj :=
  ((build_r_object_invariant RObjectType.NILVALUE RValue.vNone false none none 0
    (0, none)).1).mpr (by simp)

/-!
### Top-level trailing-data check (C5)

The base-class `Parser.parse_all` lives in `rdata/parser/_parser.py`, which
is not part of the sources under verification; only the overriding methods
in `xdr.py` and `ascii.py` are.  We therefore model the base call's outcome
abstractly, as the value it produced together with the part of the stream
it left unconsumed, and embed the overriding methods' trailing-data check
exactly as written.
-/

/-- `RData`: versions header, extra info, and the object graph. -/
structure RVersions where
  format : Nat
  serialized : Nat
  minimum : Nat
deriving DecidableEq, Repr

/-- `RExtraInfo`: the optional declared text-encoding label. -/
structure RExtraInfo where
  encoding : Option String
deriving DecidableEq, Repr

structure RData where
  versions : RVersions
  extra : RExtraInfo
  object : RObject

/-- Modelled from the spec: the outcome of the base-class
`Parser.parse_all` (in `rdata/parser/_parser.py`, not under `src/`),
which parses exactly one top-level value from the stream; the spec (§4.5)
describes it as consuming the versions header and one top-level node.  We
record the produced `RData` and the unconsumed suffix of the stream. -/
structure InnerParseOutcome (Tok : Type) where
  rdata : RData
  remaining : List Tok

/-- `ParserXDR.parse_all` (xdr.py lines 100–104): call the base parser,
then `assert self.file.read(1) == b''` — fail if any byte remains. -/
def parseAllXDR (inner : InnerParseOutcome Nat) : Except Err RData :=
  if inner.remaining.take 1 = [] then .ok inner.rdata else .error .assertionError

/-- `ParserASCII.parse_all` (ascii.py lines 58–62): call the base parser,
then `assert self.file.read(1) == ''` — fail if any character remains. -/
def parseAllASCII (inner : InnerParseOutcome Char) : Except Err RData :=
  if inner.remaining.take 1 = [] then .ok inner.rdata else .error .assertionError

/-- C5: for both wire formats, the top-level parse returns a graph iff no
input remains after the single top-level value was consumed; whenever
data remains, the call fails and returns no graph. -/
theorem parse_all_fails_on_trailing_data
    (innerX : InnerParseOutcome Nat) (innerA : InnerParseOutcome Char) :
    ((∃ rd, parseAllXDR innerX = .ok rd) ↔ innerX.remaining = []) ∧
    (innerX.remaining ≠ [] → parseAllXDR innerX = .error Err.assertionError) ∧
    ((∃ rd, parseAllASCII innerA = .ok rd) ↔ innerA.remaining = []) ∧
    (innerA.remaining ≠ [] → parseAllASCII innerA = .error Err.assertionError) := by
  refine ⟨?_, ?_, ?_, ?_⟩ <;>
    first
    | · unfold parseAllXDR
        cases innerX.remaining <;> simp
    | · unfold parseAllASCII
        cases innerA.remaining <;> simp

theorem parse_all_fails_on_trailing_data_witness :
    parseAllXDR
      ⟨⟨⟨3, 0, 0⟩, ⟨none⟩,
        RObject.mk ⟨RObjectType.NILVALUE, false, false, false, 0, 0⟩
          RValue.vNone none none none⟩, [0]⟩ = .error Err.assertionError :=
  (parse_all_fails_on_trailing_data
    ⟨⟨⟨3, 0, 0⟩, ⟨none⟩,
      RObject.mk ⟨RObjectType.NILVALUE, false, false, false, 0, 0⟩
        RValue.vNone none none none⟩, [0]⟩
    ⟨⟨⟨3, 0, 0⟩, ⟨none⟩,
      RObject.mk ⟨RObjectType.NILVALUE, false, false, false, 0, 0⟩
        RValue.vNone none none none⟩, []⟩).2.1 (by simp)

/-!
### `unparse_file` compression dispatch (C9)
-/

/-- The four `open` functions `unparse_file` can select. -/
inductive OpenFn where
  | builtinOpen
  | bz2Open
  | gzipOpen
  | lzmaOpen
deriving DecidableEq, Repr

/-- File-system effects performed by `unparse_file`, in order. -/
inductive FileEffect where
  | openFile (fn : OpenFn)
  | writeData
deriving DecidableEq, Repr

/-- `unparse_file` (unparser/__init__.py lines 40–55): select the `open`
function by compression name, raising `ValueError` for an unknown name
before any file is opened; on success open the output and write to it. -/
def unparse_file (compression : String) : Except Err (List FileEffect) :=
  if compression = "none" then
    .ok [.openFile .builtinOpen, .writeData]
  else if compression = "bzip2" then
    .ok [.openFile .bz2Open, .writeData]
  else if compression = "gzip" then
    .ok [.openFile .gzipOpen, .writeData]
  else if compression = "xz" then
    .ok [.openFile .lzmaOpen, .writeData]
  else
    .error (.valueError ("Unknown compression: " ++ compression))

/-- C9: `unparse_file` raises `ValueError` for every compression name
outside {gzip, bzip2, xz, none}, performing no file effect at all in that
case; each of the four accepted names opens the output with the matching
compression wrapper (plain builtin `open` for "none") before writing. -/
theorem unparse_file_compression_dispatch (compression : String) :
    (compression ∉ ["gzip", "bzip2", "xz", "none"] →
      unparse_file compression =
        .error (.valueError ("Unknown compression: " ++ compression))) ∧
    unparse_file "none" = .ok [.openFile .builtinOpen, .writeData] ∧
    unparse_file "bzip2" = .ok [.openFile .bz2Open, .writeData] ∧
    unparse_file "gzip" = .ok [.openFile .gzipOpen, .writeData] ∧
    unparse_file "xz" = .ok [.openFile .lzmaOpen, .writeData] := by
  refine ⟨?_, rfl, rfl, rfl, rfl⟩
  intro hmem
  simp only [List.mem_cons, List.not_mem_nil, or_false, not_or] at hmem
  obtain ⟨hg, hb, hx, hn⟩ := hmem
  unfold unparse_file
  rw [if_neg hn, if_neg hb, if_neg hg, if_neg hx]

theorem unparse_file_compression_dispatch_witness :
    unparse_file "zstd" =
      .error (Err.valueError ("Unknown compression: " ++ "zstd")) :=
  (unparse_file_compression_dispatch "zstd").1 (by decide)

/-!
### The Python → R converter (`rdata/conversion/to_r.py`)

The embedding covers the converter restricted to utf-8 sessions (the
default encoding; the verified properties are independent of the byte
encoding of strings) and to the Python input values reachable in those
properties: `None`, scalars, `bytes`, `list`/`tuple`/`dict` (with string
keys), 0- and 1-dimensional numpy arrays, and `pd.RangeIndex`.
Recursion is made structural with a fuel parameter; `Err.fuelOut` never
occurs for sufficient fuel.
-/

/-- Our own executable model of UTF-8 encoding of one code point
(`str.encode("utf-8")` per character). -/
def utf8EncodeCharModel (c : Nat) : List Nat :=
  if c < 0x80 then [c]
  else if c < 0x800 then [0xC0 + c / 0x40, 0x80 + c % 0x40]
  else if c < 0x10000 then
    [0xE0 + c / 0x1000, 0x80 + c / 0x40 % 0x40, 0x80 + c % 0x40]
  else
    [0xF0 + c / 0x40000, 0x80 + c / 0x1000 % 0x40, 0x80 + c / 0x40 % 0x40,
      0x80 + c % 0x40]

/-- `s.encode("utf-8")` as a byte list. -/
def encodeStr (s : String) : List Nat :=
  s.data.flatMap (fun c => utf8EncodeCharModel c.toNat)

/-- `chr(byte) in string.printable` (to_r.py line 383, ascii.py line 103):
the ASCII codes of digits, letters, punctuation and whitespace. -/
def pyPrintable (b : Nat) : Bool :=
  (32 ≤ b && b ≤ 126) || b == 9 || b == 10 || b == 11 || b == 12 || b == 13

/-- `CharFlags.ASCII` (gp bit 6) from `rdata.parser`. -/
def CharFlags_ASCII : Nat := 64

/-- `CharFlags.UTF8` (gp bit 3) from `rdata.parser`. -/
def CharFlags_UTF8 : Nat := 8

/-- A Python `str` or `bytes` argument of `build_r_char`. -/
inductive PyStrOrBytes where
  | pstr (s : String)
  | pbytes (bs : List Nat)

/-- `build_r_char` (to_r.py lines 362–397), utf-8 session: encode a str
argument, then choose the gp encoding flag by printability. -/
def build_r_char (data : Option PyStrOrBytes) : Except Err RObject :=
  match data with
  | none => build_r_object RObjectType.CHAR RValue.vNone false none none 0 (0, none)
  | some d =>
    let bs := match d with
      | .pstr s => encodeStr s
      | .pbytes bs => bs
    let gp := if bs.all pyPrintable then CharFlags_ASCII else CharFlags_UTF8
    build_r_object RObjectType.CHAR (RValue.vBytes bs) false none none gp (0, none)

/-- An entry of the `data` list of `build_r_list`: a plain value or a
(tag, value) tuple. -/
inductive RListEntry where
  | plain (obj : RObject)
  | tagged (tg : RObject) (car : RObject)

/-- `build_r_list` (to_r.py lines 333–359): fold a non-empty list of
values or (tag, value) pairs into a LIST cons-chain ending in NILVALUE. -/
def build_r_list : List RListEntry → Except Err RObject
  | [] => .error (.valueError "data must not be empty")
  | head :: tail => do
    let (tg, car) := match head with
      | .plain obj => ((none : Option RObject), obj)
      | .tagged t c => (some t, c)
    let cdr ←
      if tail.isEmpty then
        build_r_object RObjectType.NILVALUE RValue.vNone false none none 0 (0, none)
      else
        build_r_list tail
    build_r_object RObjectType.LIST (RValue.vPair car cdr) false none tg 0 (0, none)

/-- A Python scalar of one of the types handled by to_r.py line 623. -/
inductive Scalar where
  | sBool (b : Bool)
  | sInt (n : Int)
  | sFloat (x : RDouble)
  | sComplex (re im : RDouble)
  | sStr (s : String)
deriving DecidableEq, Repr

/-- The data of a numpy array, tagged by dtype kind.  Kind "O" arrays
are restricted to the str-or-missing elements the converter accepts.
`uints` is dtype kind "u" (e.g. the uint64 numpy selects for a Python
int in `[2^63, 2^64)`), a kind the converter's dtype dispatch does not
handle. -/
inductive NpData where
  | bools (xs : List (Option Bool))
  | ints (xs : List (Option Int))
  | uints (xs : List Nat)
  | floats (xs : List RDouble)
  | cplxs (xs : List (RDouble × RDouble))
  | ustrs (xs : List String)
  | ostrs (xs : List (Option String))
  | sbytes (xs : List (List Nat))
deriving DecidableEq, Repr

/-- A 0- or 1-dimensional numpy array (`zdim` = true means
0-dimensional; higher dimensions do not occur in the verified
properties). -/
structure NpArray where
  zdim : Bool
  data : NpData
deriving DecidableEq, Repr

/-- `np.array(scalar)`: a 0-dimensional array of the dtype numpy
selects.  For a Python int, numpy chooses int64 (kind "i") when the
value fits, uint64 (kind "u") for values in `[2^63, 2^64)`, and raises
`OverflowError` for values outside uint64. -/
def np_array_scalar : Scalar → Except Err NpArray
  | .sBool b => .ok ⟨true, .bools [some b]⟩
  | .sInt n =>
    if -(2 ^ 63) ≤ n ∧ n < 2 ^ 63 then .ok ⟨true, .ints [some n]⟩
    else if 2 ^ 63 ≤ n ∧ n < 2 ^ 64 then .ok ⟨true, .uints [n.toNat]⟩
    else .error (.overflowError "Python int too large to convert")
  | .sFloat x => .ok ⟨true, .floats [x]⟩
  | .sComplex re im => .ok ⟨true, .cplxs [(re, im)]⟩
  | .sStr s => .ok ⟨true, .ustrs [s]⟩

/-- Python input values of `convert_to_r_object`, restricted to the
types reachable in the verified properties. -/
inductive PyValue where
  | pyNone
  | pyScalar (sc : Scalar)
  | pyBytes (bs : List Nat)
  | pyList (xs : List PyValue)
  | pyTuple (xs : List PyValue)
  | pyDict (entries : List (String × PyValue))
  | pyArray (arr : NpArray)
  | pyRange (start stop step : Int)

/-- The mutable state of a `ConverterFromPythonToR` session:
configuration plus the `_references` dict.  The dict is seeded with
`{None: (0, None)}`; the list holds the string-keyed entries in
insertion order, each with its explicitly stored id
(`len(self._references)` at insertion time = list length + 1). -/
structure ConverterState where
  format_version : Nat
  r_version_serialized : Nat
  references : List (String × Nat × RObject)

/-- `self._references[name]` lookup (string keys; keys are unique). -/
def lookupRef : List (String × Nat × RObject) → String → Option (Nat × RObject)
  | [], _ => none
  | (k, id, obj) :: rest, name =>
    if k = name then some (id, obj) else lookupRef rest name

/-- A fresh converter session (`ConverterFromPythonToR.__init__`,
to_r.py lines 412–437). -/
def converterInit (format_version r_version_serialized : Nat) : ConverterState :=
  { format_version := format_version,
    r_version_serialized := r_version_serialized,
    references := [] }

/-- `len(pd.RangeIndex(start, stop, step))` (step ≠ 0). -/
def rangeLength (start stop step : Int) : Int :=
  if 0 < step then max 0 ((stop - start + step - 1) / step)
  else max 0 ((start - stop + (-step) - 1) / (-step))

/-- `np.array(pd.RangeIndex(start, stop, step))` as a (mask-free)
element list. -/
def rangeValues (start stop step : Int) : List (Option Int) :=
  (List.range (rangeLength start stop step).toNat).map
    (fun i => some (start + i * step))

mutual

/-- `ConverterFromPythonToR.convert_to_r_object` (to_r.py lines
530–646), by cases on the input value; scalars re-enter on
`np.array(scalar)`, bytes on the 0-dim "S"-dtype array, `pd.RangeIndex`
dispatches through `constructor_dict` to `rangeindex_constructor`. -/
def convert_to_r_object : Nat → ConverterState → PyValue →
    Except Err (RObject × ConverterState)
  | 0, _, _ => .error .fuelOut
  | fuel + 1, st, data =>
    match data with
    | .pyNone => do
      let obj ← build_r_object RObjectType.NILVALUE RValue.vNone false none none 0
        (0, none)
      .ok (obj, st)
    | .pyList xs => do
      let (elems, st1) ← convertElements fuel st xs
      attach_attributes fuel st1 RObjectType.VEC (RValue.vObjs elems) none
    | .pyTuple xs => do
      let (elems, st1) ← convertElements fuel st xs
      attach_attributes fuel st1 RObjectType.VEC (RValue.vObjs elems) none
    | .pyDict entries => do
      let (elems, st1) ← convertElements fuel st (entries.map Prod.snd)
      attach_attributes fuel st1 RObjectType.VEC (RValue.vObjs elems)
        (some [("names", .pyArray ⟨false, .ustrs (entries.map Prod.fst)⟩)])
    | .pyArray arr =>
      -- Promote 0-dimensional array to 1-dimensional array (lines 581–583)
      let arr1 := if arr.zdim then { arr with zdim := false } else arr
      match arr1.data with
      | .ostrs xs => do
        let r_value ← xs.mapM (fun el => build_r_char (el.map PyStrOrBytes.pstr))
        attach_attributes fuel st RObjectType.STR (RValue.vObjs r_value) none
      | .sbytes xs =>
        -- bytes object is converted to this dtype; `assert data.size == 1`
        match xs with
        | [bs] => do
          let obj ← build_r_char (some (.pbytes bs))
          .ok (obj, st)
        | _ => .error .assertionError
      | .ustrs xs => do
        let r_value ← xs.mapM (fun el => build_r_char (some (.pstr el)))
        attach_attributes fuel st RObjectType.STR (RValue.vObjs r_value) none
      | .bools xs =>
        attach_attributes fuel st RObjectType.LGL (RValue.vBools xs) none
      | .ints xs =>
        attach_attributes fuel st RObjectType.INT (RValue.vInts xs) none
      | .uints _ =>
        -- dtype kind "u" is absent from the dispatch dict of line 609:
        -- `{"b": ..., "i": ..., "f": ..., "c": ...}[data.dtype.kind]`
        .error (.keyError "u")
      | .floats xs =>
        attach_attributes fuel st RObjectType.REAL (RValue.vReals xs) none
      | .cplxs xs =>
        attach_attributes fuel st RObjectType.CPLX (RValue.vCplxs xs) none
    | .pyScalar sc => do
      let arr ← np_array_scalar sc
      convert_to_r_object fuel st (.pyArray arr)
    | .pyBytes bs =>
      convert_to_r_object fuel st (.pyArray ⟨true, .sbytes [bs]⟩)
    | .pyRange start stop step =>
      rangeindex_constructor fuel st start stop step

/-- State-threaded element-wise conversion (the list comprehensions of
the VEC branches). -/
def convertElements : Nat → ConverterState → List PyValue →
    Except Err (List RObject × ConverterState)
  | 0, _, _ => .error .fuelOut
  | _ + 1, st, [] => .ok ([], st)
  | fuel + 1, st, x :: xs => do
    let (obj, st1) ← convert_to_r_object fuel st x
    let (objs, st2) ← convertElements fuel st1 xs
    .ok (obj :: objs, st2)

/-- The final segment of `convert_to_r_object` (to_r.py lines 635–646):
set `is_object = "class" in attributes`, convert the attributes
dictionary, and build the node. -/
def attach_attributes : Nat → ConverterState → RObjectType → RValue →
    Option (List (String × PyValue)) → Except Err (RObject × ConverterState)
  | 0, _, _, _, _ => .error .fuelOut
  | _ + 1, st, r_type, r_value, none => do
    let obj ← build_r_object r_type r_value false none none 0 (0, none)
    .ok (obj, st)
  | fuel + 1, st, r_type, r_value, some attrs => do
    let is_object := attrs.any (fun kv => kv.1 = "class")
    let (r_attributes, st1) ← convert_to_r_attributes fuel st attrs
    let obj ← build_r_object r_type r_value is_object (some r_attributes) none 0
      (0, none)
    .ok (obj, st1)

/-- `ConverterFromPythonToR.convert_to_r_attributes` (to_r.py lines
482–502): convert each (key, value) into a (symbol, object) pair, then
build the attributes pairlist. -/
def convert_to_r_attributes : Nat → ConverterState → List (String × PyValue) →
    Except Err (RObject × ConverterState)
  | 0, _, _ => .error .fuelOut
  | fuel + 1, st, entries => do
    let (pairs, st1) ← convertAttrPairs fuel st entries
    let obj ← build_r_list (pairs.map (fun p => .tagged p.1 p.2))
    .ok (obj, st1)

/-- The loop body of `convert_to_r_attributes`. -/
def convertAttrPairs : Nat → ConverterState → List (String × PyValue) →
    Except Err (List (RObject × RObject) × ConverterState)
  | 0, _, _ => .error .fuelOut
  | _ + 1, st, [] => .ok ([], st)
  | fuel + 1, st, (key, val) :: rest => do
    let (sym, st1) ← convert_to_r_sym fuel st key
    let (obj, st2) ← convert_to_r_object fuel st1 val
    let (pairs, st3) ← convertAttrPairs fuel st2 rest
    .ok ((sym, obj) :: pairs, st3)

/-- `ConverterFromPythonToR.convert_to_r_sym` (to_r.py lines 504–528):
return a back-reference to an already interned name, else build a
literal symbol and record it with id `len(self._references)`
(= number of interned names + 1, counting the seeded `None` entry). -/
def convert_to_r_sym : Nat → ConverterState → String →
    Except Err (RObject × ConverterState)
  | 0, _, _ => .error .fuelOut
  | fuel + 1, st, name =>
    match lookupRef st.references name with
    | some (id, obj) => do
      let refobj ← build_r_object RObjectType.REF RValue.vNone false none none 0
        (id, some obj)
      .ok (refobj, st)
    | none => do
      let (r_value, st1) ← convert_to_r_object fuel st (.pyBytes (encodeStr name))
      let r_object ← build_r_object RObjectType.SYM (RValue.vObj r_value) false
        none none 0 (0, none)
      let st2 := { st1 with
        references := st1.references ++ [(name, st1.references.length + 1, r_object)] }
      .ok (r_object, st2)

/-- `rangeindex_constructor` (to_r.py lines 161–209): plain INT vector
below format version 3 or for step ≠ 1; otherwise a compact
`compact_intseq` ALTREP node. -/
def rangeindex_constructor : Nat → ConverterState → Int → Int → Int →
    Except Err (RObject × ConverterState)
  | 0, _, _, _, _ => .error .fuelOut
  | fuel + 1, st, start, stop, step =>
    if st.format_version < 3 then do
      -- ALTREP support is from R version 3.5.0
      let obj ← build_r_object RObjectType.INT
        (RValue.vInts (rangeValues start stop step)) false none none 0 (0, none)
      .ok (obj, st)
    else if step ≠ 1 then do
      -- R supports compact sequences only with step 1
      let obj ← build_r_object RObjectType.INT
        (RValue.vInts (rangeValues start stop step)) false none none 0 (0, none)
      .ok (obj, st)
    else do
      let (sym1, st1) ← convert_to_r_sym fuel st "compact_intseq"
      let (sym2, st2) ← convert_to_r_sym fuel st1 "base"
      let (tobj, st3) ← convert_to_r_object fuel st2
        (.pyScalar (.sInt (RObjectType.value RObjectType.INT)))
      let description ← build_r_list [.plain sym1, .plain sym2, .plain tobj]
      let (state1, st4) ← convert_to_r_object fuel st3
        (.pyArray ⟨false, .floats [⟨rangeLength start stop step⟩, ⟨start⟩, ⟨step⟩]⟩)
      let (nilobj, st5) ← convert_to_r_object fuel st4 .pyNone
      let obj ← build_r_object RObjectType.ALTREP
        (RValue.vAltrep description state1 nilobj) false none none 0 (0, none)
      .ok (obj, st5)

end

/-!
### Node shapes produced by the converter
-/

/-- The CHAR node built by `build_r_char` from a byte string. -/
def mkCharBytesNode (bs : List Nat) : RObject :=
  .mk ⟨RObjectType.CHAR, false, false, false,
      (if bs.all pyPrintable then CharFlags_ASCII else CharFlags_UTF8), 0⟩
    (RValue.vBytes bs) none none none

/-- The literal symbol node built for a first-seen name (utf-8 session). -/
def mkSymNode (name : String) : RObject :=
  .mk ⟨RObjectType.SYM, false, false, false, 0, 0⟩
    (RValue.vObj (mkCharBytesNode (encodeStr name))) none none none

/-- The back-reference node for reference id `id` and target `obj`. -/
def mkRefNode (id : Nat) (obj : RObject) : RObject :=
  .mk ⟨RObjectType.REF, false, false, false, 0, id⟩ RValue.vNone none none (some obj)

/-- An attribute-free INT vector node. -/
def mkIntVecNode (xs : List (Option Int)) : RObject :=
  .mk ⟨RObjectType.INT, false, false, false, 0, 0⟩ (RValue.vInts xs) none none none

/-- An attribute-free REAL vector node. -/
def mkRealVecNode (xs : List RDouble) : RObject :=
  .mk ⟨RObjectType.REAL, false, false, false, 0, 0⟩ (RValue.vReals xs) none none none

/-- The NILVALUE node. -/
def mkNilNode : RObject :=
  .mk ⟨RObjectType.NILVALUE, false, false, false, 0, 0⟩ RValue.vNone none none none

/-- A LIST cons cell with optional tag. -/
def mkListCell (tg : Option RObject) (car cdr : RObject) : RObject :=
  .mk ⟨RObjectType.LIST, false, false, tg.isSome, 0, 0⟩ (RValue.vPair car cdr)
    none tg none

/-- The plain INT vector emitted for a non-compactable range. -/
def plainIntRange (start stop step : Int) : RObject :=
  mkIntVecNode (rangeValues start stop step)

theorem exceptBindOk {α β : Type} (a : α) (f : α → Except Err β) :
    (Except.ok a >>= f) = f a :=
  rfl

theorem convert_pyBytes : ∀ fuel : Nat, 2 ≤ fuel → ∀ (st : ConverterState)
    (bs : List Nat),
    convert_to_r_object fuel st (.pyBytes bs) = .ok (mkCharBytesNode bs, st)
  | _ + 2, _, _, _ => rfl

/-- One step of the scalar branch (to_r.py line 624):
`return self.convert_to_r_object(np.array(data))`. -/
theorem convert_pyScalar_step (fuel : Nat) (st : ConverterState) (sc : Scalar) :
    convert_to_r_object (fuel + 1) st (.pyScalar sc) =
      (np_array_scalar sc >>= fun arr =>
        convert_to_r_object fuel st (.pyArray arr)) :=
  rfl

theorem convert_ints_zdim : ∀ fuel : Nat, 2 ≤ fuel → ∀ (st : ConverterState)
    (xs : List (Option Int)),
    convert_to_r_object fuel st (.pyArray ⟨true, .ints xs⟩) =
      .ok (mkIntVecNode xs, st)
  | _ + 2, _, _, _ => rfl

theorem convert_uints_zdim : ∀ fuel : Nat, 1 ≤ fuel → ∀ (st : ConverterState)
    (xs : List Nat),
    convert_to_r_object fuel st (.pyArray ⟨true, .uints xs⟩) =
      .error (Err.keyError "u")
  | _ + 1, _, _, _ => rfl

theorem np_array_scalar_int64 (n : Int) (h1 : -(2 ^ 63) ≤ n) (h2 : n < 2 ^ 63) :
    np_array_scalar (.sInt n) = .ok ⟨true, .ints [some n]⟩ := by
  simp only [np_array_scalar]
  rw [if_pos ⟨h1, h2⟩]

theorem np_array_scalar_uint64 (n : Int) (h1 : 2 ^ 63 ≤ n) (h2 : n < 2 ^ 64) :
    np_array_scalar (.sInt n) = .ok ⟨true, .uints [n.toNat]⟩ := by
  simp only [np_array_scalar]
  rw [if_neg (by omega), if_pos ⟨h1, h2⟩]

theorem np_array_scalar_overflow (n : Int) (h : n < -(2 ^ 63) ∨ 2 ^ 64 ≤ n) :
    np_array_scalar (.sInt n) =
      .error (.overflowError "Python int too large to convert") := by
  simp only [np_array_scalar]
  rw [if_neg (by omega), if_neg (by omega)]

theorem convert_sInt (fuel : Nat) (hf : 3 ≤ fuel) (st : ConverterState)
    (n : Int) (h1 : -(2 ^ 63) ≤ n) (h2 : n < 2 ^ 63) :
    convert_to_r_object fuel st (.pyScalar (.sInt n)) =
      .ok (mkIntVecNode [some n], st) := by
  obtain ⟨m, rfl⟩ : ∃ m, fuel = m + 3 := ⟨fuel - 3, by omega⟩
  have hstep := convert_pyScalar_step (m + 2) st (.sInt n)
  rw [np_array_scalar_int64 n h1 h2, exceptBindOk,
    convert_ints_zdim (m + 2) (by omega) st [some n]] at hstep
  exact hstep

/-- The conversion of the INT type-code scalar (13) inside
`rangeindex_constructor`'s descriptor. -/
theorem convert_int_code (fuel : Nat) (hf : 3 ≤ fuel) (st : ConverterState) :
    convert_to_r_object fuel st
        (.pyScalar (.sInt (RObjectType.value RObjectType.INT))) =
      .ok (mkIntVecNode [some 13], st) :=
  convert_sInt fuel hf st 13 (by norm_num) (by norm_num)

theorem convert_floats : ∀ fuel : Nat, 2 ≤ fuel → ∀ (st : ConverterState)
    (xs : List RDouble),
    convert_to_r_object fuel st (.pyArray ⟨false, .floats xs⟩) =
      .ok (mkRealVecNode xs, st)
  | _ + 2, _, _, _ => rfl

theorem convert_pyNone : ∀ fuel : Nat, 1 ≤ fuel → ∀ st : ConverterState,
    convert_to_r_object fuel st .pyNone = .ok (mkNilNode, st)
  | _ + 1, _, _ => rfl

/-- Interning a fresh name: a literal symbol is built and recorded with
id `len(self._references)` = number of interned names + 1. -/
theorem convert_to_r_sym_fresh : ∀ fuel : Nat, 3 ≤ fuel →
    ∀ (st : ConverterState) (name : String),
    lookupRef st.references name = none →
    convert_to_r_sym fuel st name =
      .ok (mkSymNode name,
        { st with references :=
            st.references ++ [(name, st.references.length + 1, mkSymNode name)] })
  | n + 3, _, st, name, h => by
    unfold convert_to_r_sym
    rw [h]
    rw [convert_pyBytes (n + 2) (by omega) st (encodeStr name)]
    rfl

/-- Interning an already-seen name: a back-reference carrying the stored
id is returned and the state is unchanged. -/
theorem convert_to_r_sym_seen : ∀ fuel : Nat, 1 ≤ fuel →
    ∀ (st : ConverterState) (name : String) (id : Nat) (obj : RObject),
    lookupRef st.references name = some (id, obj) → id ≠ 0 →
    convert_to_r_sym fuel st name = .ok (mkRefNode id obj, st)
  | n + 1, _, st, name, id, obj, h, hid => by
    unfold convert_to_r_sym
    rw [h]
    simp only [build_r_object, Option.isNone_some]
    rw [if_pos (by simp [hid])]
    rfl

/-- Ids stored in `_references` are exactly `1, 2, …, n` in insertion
order. -/
def wfRefs (l : List (String × Nat × RObject)) : Prop :=
  l.map (fun e => e.2.1) = List.range' 1 l.length

theorem wfRefs_nil : wfRefs [] := rfl

theorem wfRefs_append (l : List (String × Nat × RObject)) (name : String)
    (obj : RObject) (h : wfRefs l) :
    wfRefs (l ++ [(name, l.length + 1, obj)]) := by
  unfold wfRefs at h ⊢
  rw [List.map_append, h, List.length_append]
  simp [List.range'_concat, Nat.add_comm]

theorem lookupRef_range (l : List (String × Nat × RObject)) (s : Nat)
    (h : l.map (fun e => e.2.1) = List.range' s l.length) (name : String)
    (id : Nat) (obj : RObject) (hl : lookupRef l name = some (id, obj)) :
    s ≤ id ∧ id < s + l.length := by
  induction l generalizing s with
  | nil => simp [lookupRef] at hl
  | cons e rest ih =>
    obtain ⟨k, i, o⟩ := e
    simp only [List.map_cons, List.length_cons, List.range'_succ] at h
    rw [List.cons.injEq] at h
    obtain ⟨hi, hrest⟩ := h
    simp only [lookupRef] at hl
    split at hl
    · rw [Option.some.injEq, Prod.mk.injEq] at hl
      obtain ⟨hid, _⟩ := hl
      simp only [List.length_cons]
      omega
    · have := ih (s + 1) hrest hl
      simp only [List.length_cons]
      omega

theorem lookupRef_wf_pos (l : List (String × Nat × RObject)) (h : wfRefs l)
    (name : String) (id : Nat) (obj : RObject)
    (hl : lookupRef l name = some (id, obj)) : 1 ≤ id ∧ id ≤ l.length := by
  have := lookupRef_range l 1 h name id obj hl
  omega

theorem lookupRef_append_ne (l : List (String × Nat × RObject)) (k : String)
    (e : Nat × RObject) (name : String) (hne : name ≠ k) :
    lookupRef (l ++ [(k, e)]) name = lookupRef l name := by
  induction l with
  | nil =>
    simp only [List.nil_append, lookupRef]
    rw [if_neg (fun hk => hne hk.symm)]
  | cons x rest ih =>
    obtain ⟨xk, xi, xo⟩ := x
    by_cases hxk : xk = name <;> simp [lookupRef, hxk, ih]

/-- C1: in a converter session with well-formed reference table (ids are
`1, …, n` in first-seen order — true initially and preserved), the first
`convert_to_r_sym` call for a name builds a literal symbol node (not a
back-reference) and records it under the next sequential id
`n + 1` (so the first symbol of a session gets id 1, id 0 being reserved
for "no reference"); every later call for the same name returns a
back-reference node carrying exactly the stored id — never a second
literal — and leaves the table unchanged; the table only ever grows by
appending, so ids are monotone in first-seen order and never reused or
shrunk within the session. -/
theorem convert_to_r_sym_interning (fuel : Nat) (st : ConverterState)
    (name : String) (hwf : wfRefs st.references) :
    (lookupRef st.references name = none →
      convert_to_r_sym (fuel + 3) st name =
        .ok (mkSymNode name,
          { st with references :=
              st.references ++ [(name, st.references.length + 1, mkSymNode name)] }) ∧
      (mkSymNode name).info.type = RObjectType.SYM ∧
      (mkSymNode name).info.reference = 0 ∧
      wfRefs (st.references ++ [(name, st.references.length + 1, mkSymNode name)])) ∧
    (∀ (id : Nat) (obj : RObject),
      lookupRef st.references name = some (id, obj) →
      convert_to_r_sym (fuel + 1) st name = .ok (mkRefNode id obj, st) ∧
      (mkRefNode id obj).info.type = RObjectType.REF ∧
      (mkRefNode id obj).info.reference = id ∧
      (mkRefNode id obj).referenced_object = some obj ∧
      1 ≤ id ∧ id ≤ st.references.length) := by
  constructor
  · intro h
    exact ⟨convert_to_r_sym_fresh (fuel + 3) (by omega) st name h, rfl, rfl,
      wfRefs_append st.references name (mkSymNode name) hwf⟩
  · intro id obj h
    have hpos := lookupRef_wf_pos st.references hwf name id obj h
    exact ⟨convert_to_r_sym_seen (fuel + 1) (by omega) st name id obj h (by omega),
      rfl, rfl, rfl, hpos.1, hpos.2⟩

theorem convert_to_r_sym_interning_witness :
    convert_to_r_sym 3 (converterInit 3 0) "names" =
      .ok (mkSymNode "names",
        { converterInit 3 0 with references := [("names", 1, mkSymNode "names")] }) ∧
    convert_to_r_sym 1
        { converterInit 3 0 with references := [("names", 1, mkSymNode "names")] }
        "names" =
      .ok (mkRefNode 1 (mkSymNode "names"),
        { converterInit 3 0 with references := [("names", 1, mkSymNode "names")] }) :=
  ⟨((convert_to_r_sym_interning 0 (converterInit 3 0) "names" wfRefs_nil).1 rfl).1,
    ((convert_to_r_sym_interning 0
        { converterInit 3 0 with references := [("names", 1, mkSymNode "names")] }
        "names" (by simp [wfRefs, List.range'])).2 1 (mkSymNode "names") rfl).1⟩

/-- C7: converting a `pd.RangeIndex` compacts exactly when the format
version is ≥ 3 and the step is 1: such a range becomes an ALTREP
(compact-representation) node whose descriptor names class
`compact_intseq` in namespace `base` (plus the INT type code 13) and
whose state payload is the float-encoded (length, start, step) triple of
the range; any other step, or any range below format version 3, is
written as a plain INT vector holding the range's elements.  (Stated for
a session that has not yet interned the two descriptor symbol names,
e.g. any fresh session.) -/
theorem rangeindex_compaction (fuel : Nat) (st : ConverterState)
    (start stop step : Int) :
    (st.format_version < 3 →
      rangeindex_constructor (fuel + 1) st start stop step =
        .ok (plainIntRange start stop step, st)) ∧
    (3 ≤ st.format_version → step ≠ 1 →
      rangeindex_constructor (fuel + 1) st start stop step =
        .ok (plainIntRange start stop step, st)) ∧
    (3 ≤ st.format_version → step = 1 →
      lookupRef st.references "compact_intseq" = none →
      lookupRef st.references "base" = none →
      rangeindex_constructor (fuel + 4) st start stop step =
        .ok (RObject.mk ⟨RObjectType.ALTREP, false, false, false, 0, 0⟩
          (RValue.vAltrep
            (mkListCell none (mkSymNode "compact_intseq")
              (mkListCell none (mkSymNode "base")
                (mkListCell none (mkIntVecNode [some 13]) mkNilNode)))
            (mkRealVecNode [⟨rangeLength start stop step⟩, ⟨start⟩, ⟨step⟩])
            mkNilNode)
          none none none,
        { st with references := st.references ++
            [("compact_intseq", st.references.length + 1,
                mkSymNode "compact_intseq"),
              ("base", st.references.length + 2, mkSymNode "base")] })) := by
  refine ⟨?_, ?_, ?_⟩
  · intro hfv
    unfold rangeindex_constructor
    rw [if_pos hfv]
    rfl
  · intro hfv hstep
    unfold rangeindex_constructor
    rw [if_neg (by omega), if_pos hstep]
    rfl
  · intro hfv hstep h1 h2
    subst hstep
    unfold rangeindex_constructor
    rw [if_neg (by omega), if_neg (by simp)]
    rw [convert_to_r_sym_fresh (fuel + 3) (by omega) st "compact_intseq" h1]
    simp only [exceptBindOk]
    have h2' : lookupRef (st.references ++
        [("compact_intseq", st.references.length + 1, mkSymNode "compact_intseq")])
        "base" = none := by
      rw [lookupRef_append_ne st.references "compact_intseq" _ "base" (by decide)]
      exact h2
    rw [convert_to_r_sym_fresh (fuel + 3) (by omega)
      { st with references := st.references ++
          [("compact_intseq", st.references.length + 1, mkSymNode "compact_intseq")] }
      "base" h2']
    simp only [exceptBindOk]
    rw [convert_int_code (fuel + 3) (by omega)]
    simp only [exceptBindOk]
    rw [convert_floats (fuel + 3) (by omega)]
    simp only [exceptBindOk]
    rw [convert_pyNone (fuel + 3) (by omega)]
    simp only [exceptBindOk]
    simp [build_r_list, build_r_object, exceptBindOk, mkListCell, mkNilNode,
      mkIntVecNode, mkRealVecNode, List.append_assoc, RObjectType.value]

theorem rangeindex_compaction_witness :
    rangeindex_constructor 4 (converterInit 3 0) 1 6 1 =
      .ok (RObject.mk ⟨RObjectType.ALTREP, false, false, false, 0, 0⟩
        (RValue.vAltrep
          (mkListCell none (mkSymNode "compact_intseq")
            (mkListCell none (mkSymNode "base")
              (mkListCell none (mkIntVecNode [some 13]) mkNilNode)))
          (mkRealVecNode [⟨rangeLength 1 6 1⟩, ⟨1⟩, ⟨1⟩])
          mkNilNode)
        none none none,
      { converterInit 3 0 with references :=
          [("compact_intseq", 1, mkSymNode "compact_intseq"),
            ("base", 2, mkSymNode "base")] }) :=
  (rangeindex_compaction 0 (converterInit 3 0) 1 6 1).2.2 (by decide) rfl rfl rfl

theorem exceptBindErr {α β : Type} (e : Err) (f : α → Except Err β) :
    ((Except.error e : Except Err α) >>= f) = Except.error e :=
  rfl

/-- C8: whenever `convert_to_r_object` attaches a converted attributes
dictionary to the node it builds (the `attach_attributes` tail of the
function), the node's `is_object` header flag is true iff the attributes
contain a `"class"` key — regardless of where in the dictionary (and
hence where in the converted pairlist chain) the entry sits and how many
other attributes there are. -/
theorem attach_attributes_class_sets_is_object (fuel : Nat)
    (st : ConverterState) (r_type : RObjectType) (r_value : RValue)
    (attrs : List (String × PyValue)) (obj : RObject) (stf : ConverterState)
    (h : attach_attributes (fuel + 1) st r_type r_value (some attrs) =
      .ok (obj, stf)) :
    (obj.info.object = true ↔ "class" ∈ attrs.map Prod.fst) := by
  unfold attach_attributes at h
  cases hconv : convert_to_r_attributes fuel st attrs with
  | error e =>
    rw [hconv] at h
    rw [exceptBindErr] at h
    exact Except.noConfusion h
  | ok p =>
    obtain ⟨ra, st1⟩ := p
    rw [hconv] at h
    simp only [exceptBindOk] at h
    unfold build_r_object at h
    by_cases hrt : r_type = RObjectType.REF
    · rw [if_neg (by simp [hrt])] at h
      rw [exceptBindErr] at h
      exact Except.noConfusion h
    · rw [if_pos (by simp [hrt])] at h
      rw [exceptBindOk] at h
      rw [Except.ok.injEq, Prod.mk.injEq] at h
      obtain ⟨hobj, _⟩ := h
      rw [← hobj]
      simp only [RObject.info]
      simp [List.any_eq_true, List.mem_map, decide_eq_true_eq]

theorem attach_attributes_class_witness :
    ∃ obj stf,
      attach_attributes 9 (converterInit 3 0) RObjectType.VEC (RValue.vObjs [])
        (some [("a", PyValue.pyNone), ("class", PyValue.pyNone),
          ("b", PyValue.pyNone)]) = .ok (obj, stf) ∧
      (obj.info.object = true ↔
        "class" ∈ ([("a", PyValue.pyNone), ("class", PyValue.pyNone),
          ("b", PyValue.pyNone)].map Prod.fst)) :=
  ⟨_, _, rfl,
    attach_attributes_class_sets_is_object 8 (converterInit 3 0) RObjectType.VEC
      (RValue.vObjs [])
      [("a", PyValue.pyNone), ("class", PyValue.pyNone), ("b", PyValue.pyNone)]
      _ _ rfl⟩

/-- The length of an atomic-vector payload. -/
def atomicLength : RValue → Option Nat
  | .vBools xs => some xs.length
  | .vInts xs => some xs.length
  | .vReals xs => some xs.length
  | .vCplxs xs => some xs.length
  | .vObjs xs => some xs.length
  | _ => none

/-- The scalars whose `np.array` dtype kind is one the converter's
dtype dispatch accepts: bool, float, complex and str always, int only
within int64 range. -/
def scalarInDispatch : Scalar → Prop
  | .sInt n => -(2 ^ 63) ≤ n ∧ n < 2 ^ 63
  | _ => True

/-- The original claim fails for int scalars outside int64:
`np.array(2**63)` is a uint64 array (dtype kind "u"), on which the
dtype dispatch of `convert_to_r_object` raises `KeyError`, so the
scalar does not convert to a length-1 atomic vector at all. -/
theorem scalar_conversion_counterexample :
    convert_to_r_object 3 (converterInit 3 0) (.pyScalar (.sInt (2 ^ 63))) =
      .error (Err.keyError "u") := by
  have hstep := convert_pyScalar_step 2 (converterInit 3 0) (.sInt (2 ^ 63))
  rw [np_array_scalar_uint64 (2 ^ 63) (by norm_num) (by norm_num), exceptBindOk,
    convert_uints_zdim 2 (by omega) (converterInit 3 0)
      [((2 : Int) ^ 63).toNat]] at hstep
  exact hstep

/-- C10 (amended): a Python scalar of type bool, int, float, complex or
str is converted exactly by converting `np.array(scalar)` (including
propagation of `np.array`'s `OverflowError` for ints outside uint64
range); a 0-dimensional numpy array is converted exactly as its
promotion to a one-element 1-dimensional array; a scalar whose selected
dtype kind is in the dispatch — bool, float, complex, str, and int
within int64 range — converts to an attribute-free length-1 atomic
vector (LGL, INT, REAL, CPLX or STR) without touching the session
state; an int in `[2^63, 2^64)` (numpy dtype uint64, kind "u") raises
`KeyError` in the dtype dispatch; an int outside uint64 raises
`OverflowError` in `np.array` itself. -/
theorem scalar_conversion (fuel : Nat) (st : ConverterState) (sc : Scalar)
    (d : NpData) :
    convert_to_r_object (fuel + 1) st (.pyScalar sc) =
      (np_array_scalar sc >>= fun arr =>
        convert_to_r_object fuel st (.pyArray arr)) ∧
    convert_to_r_object (fuel + 1) st (.pyArray ⟨true, d⟩) =
      convert_to_r_object (fuel + 1) st (.pyArray ⟨false, d⟩) ∧
    (scalarInDispatch sc →
      ∃ obj, convert_to_r_object (fuel + 3) st (.pyScalar sc) = .ok (obj, st) ∧
        obj.info.type ∈ [RObjectType.LGL, RObjectType.INT, RObjectType.REAL,
          RObjectType.CPLX, RObjectType.STR] ∧
        atomicLength obj.value = some 1 ∧
        obj.attributes = none ∧ obj.info.attributes = false) ∧
    (∀ n : Int, 2 ^ 63 ≤ n → n < 2 ^ 64 →
      convert_to_r_object (fuel + 2) st (.pyScalar (.sInt n)) =
        .error (Err.keyError "u")) ∧
    (∀ n : Int, n < -(2 ^ 63) ∨ 2 ^ 64 ≤ n →
      convert_to_r_object (fuel + 1) st (.pyScalar (.sInt n)) =
        .error (Err.overflowError "Python int too large to convert")) := by
  refine ⟨rfl, rfl, ?_, ?_, ?_⟩
  · intro hdisp
    cases sc with
    | sBool b => exact ⟨_, rfl, by simp [RObject.info], rfl, rfl, rfl⟩
    | sInt n =>
      have heq := convert_sInt (fuel + 3) (by omega) st n hdisp.1 hdisp.2
      exact ⟨_, heq, by simp [mkIntVecNode, RObject.info], rfl, rfl, rfl⟩
    | sFloat x => exact ⟨_, rfl, by simp [RObject.info], rfl, rfl, rfl⟩
    | sComplex re im => exact ⟨_, rfl, by simp [RObject.info], rfl, rfl, rfl⟩
    | sStr s => exact ⟨_, rfl, by simp [RObject.info], rfl, rfl, rfl⟩
  · intro n h1 h2
    have hstep := convert_pyScalar_step (fuel + 1) st (.sInt n)
    rw [np_array_scalar_uint64 n h1 h2, exceptBindOk,
      convert_uints_zdim (fuel + 1) (by omega) st [n.toNat]] at hstep
    exact hstep
  · intro n hn
    have hstep := convert_pyScalar_step fuel st (.sInt n)
    rw [np_array_scalar_overflow n hn, exceptBindErr] at hstep
    exact hstep

theorem scalar_conversion_witness :
    (∃ obj, convert_to_r_object 3 (converterInit 3 0) (.pyScalar (.sInt 7)) =
        .ok (obj, converterInit 3 0) ∧
      obj.info.type ∈ [RObjectType.LGL, RObjectType.INT, RObjectType.REAL,
        RObjectType.CPLX, RObjectType.STR] ∧
      atomicLength obj.value = some 1 ∧
      obj.attributes = none ∧ obj.info.attributes = false) ∧
    convert_to_r_object 2 (converterInit 3 0) (.pyScalar (.sInt (2 ^ 63))) =
      .error (Err.keyError "u") ∧
    convert_to_r_object 1 (converterInit 3 0) (.pyScalar (.sInt (2 ^ 64))) =
      .error (Err.overflowError "Python int too large to convert") :=
  ⟨(scalar_conversion 0 (converterInit 3 0) (.sInt 7) (.bools [])).2.2.1
      (by constructor <;> norm_num),
    (scalar_conversion 0 (converterInit 3 0) (.sInt (2 ^ 63)) (.bools [])).2.2.2.1
      (2 ^ 63) (by norm_num) (by norm_num),
    (scalar_conversion 0 (converterInit 3 0) (.sInt (2 ^ 64)) (.bools [])).2.2.2.2
      (2 ^ 64) (Or.inr (by norm_num))⟩

/-!
### ASCII codec byte strings (`rdata/io/ascii.py`)

The text stream is modelled as the list of character codes, with `'\n'`
(code 10) as the line separator (the behaviour of `readline` on the
`io.StringIO`/`newline='\n'` text streams the library uses).
`parse_string` pipes the line through Python's `unicode_escape` codec;
`uDecode` models that codec: octal escapes of up to three digits, the
standard single-character escapes, `\xHH`/`\uHHHH`/`\UHHHHHHHH`, an
unknown escape kept verbatim with its backslash, and an error for a
trailing backslash (`\N{...}` named escapes do not occur here and are
modelled as an error). -/

/-- One octal digit? (codes 48–55). -/
def isOctDigit (c : Nat) : Bool := 48 ≤ c && c ≤ 55

/-- One hex digit? -/
def isHexDigit (c : Nat) : Bool :=
  (48 ≤ c && c ≤ 57) || (97 ≤ c && c ≤ 102) || (65 ≤ c && c ≤ 70)

/-- Value of a hex digit. -/
def hexVal (c : Nat) : Nat :=
  if c ≤ 57 then c - 48 else if c ≤ 70 then c - 55 else c - 87

/-- Value of a string of hex digits. -/
def hexListVal (l : List Nat) : Nat :=
  l.foldl (fun a c => a * 16 + hexVal c) 0

/-- Exactly `n` well-formed hex digits at the front of the line? -/
def hexOk (n : Nat) (l : List Nat) : Bool :=
  (l.take n).length == n && (l.take n).all isHexDigit

/-- Python's `unicode_escape` decoding of a line (code-point values). -/
def uDecode : List Nat → Option (List Nat)
  | [] => some []
  | c :: rest =>
    if c = 92 then
      match rest with
      | [] => none
      | e :: rest1 =>
        if isOctDigit e then
          match rest1 with
          | d2 :: rest2 =>
            if isOctDigit d2 then
              match rest2 with
              | d3 :: rest3 =>
                if isOctDigit d3 then
                  (uDecode rest3).map
                    (((e - 48) * 64 + (d2 - 48) * 8 + (d3 - 48)) :: ·)
                else
                  (uDecode (d3 :: rest3)).map (((e - 48) * 8 + (d2 - 48)) :: ·)
              | [] => some [(e - 48) * 8 + (d2 - 48)]
            else
              (uDecode (d2 :: rest2)).map ((e - 48) :: ·)
          | [] => some [e - 48]
        else if e = 110 then (uDecode rest1).map (10 :: ·)
        else if e = 116 then (uDecode rest1).map (9 :: ·)
        else if e = 114 then (uDecode rest1).map (13 :: ·)
        else if e = 92 then (uDecode rest1).map (92 :: ·)
        else if e = 39 then (uDecode rest1).map (39 :: ·)
        else if e = 34 then (uDecode rest1).map (34 :: ·)
        else if e = 97 then (uDecode rest1).map (7 :: ·)
        else if e = 98 then (uDecode rest1).map (8 :: ·)
        else if e = 102 then (uDecode rest1).map (12 :: ·)
        else if e = 118 then (uDecode rest1).map (11 :: ·)
        else if e = 10 then uDecode rest1
        else if e = 120 then
          if hexOk 2 rest1 then
            (uDecode (rest1.drop 2)).map (hexListVal (rest1.take 2) :: ·)
          else none
        else if e = 117 then
          if hexOk 4 rest1 then
            (uDecode (rest1.drop 4)).map (hexListVal (rest1.take 4) :: ·)
          else none
        else if e = 85 then
          if hexOk 8 rest1 then
            (uDecode (rest1.drop 8)).map (hexListVal (rest1.take 8) :: ·)
          else none
        else if e = 78 then none
        else (uDecode rest1).map (fun l => 92 :: e :: l)
    else
      (uDecode rest).map (c :: ·)
termination_by l => l.length
decreasing_by all_goals simp [List.length_cons, List.length_drop] <;> omega

/-- The f-string escape `rf'\{byte:03o}'` (ascii.py line 103): a
backslash and three zero-padded octal digits. -/
def octalEscape (b : Nat) : List Nat :=
  [92, 48 + b / 64 % 8, 48 + b / 8 % 8, 48 + b % 8]

/-- One byte of the line written by `WriterASCII.write_string`:
printable bytes verbatim, others as a C-style octal escape. -/
def escapeByte (b : Nat) : List Nat :=
  if pyPrintable b then [b] else octalEscape b

/-- The line content written by `WriterASCII.write_string` (line 103). -/
def write_string_line (value : List Nat) : List Nat :=
  value.flatMap escapeByte

/-- `WriterASCII.write_string` (ascii.py lines 96–105): the emitted
length, and the stream appended (the escaped line plus the `'\n'` from
`_writeline`). -/
def write_string (value : List Nat) : Nat × List Nat :=
  (value.length, write_string_line value ++ [10])

/-- `readline()` on a text stream: the consumed part (up to and
including the `'\n'`) and the rest. -/
def readline : List Nat → List Nat × List Nat
  | [] => ([], [])
  | c :: rest =>
    if c = 10 then ([10], rest)
    else
      let p := readline rest
      (c :: p.1, p.2)

/-- `ParserASCII.parse_string` (ascii.py lines 55–56):
`self._readline().encode('ascii').decode('unicode_escape').encode('latin1')`,
together with the rest of the stream.  `none` models the exceptions of
the three codec steps. -/
def parse_string (stream : List Nat) : Option (List Nat) × List Nat :=
  let p := readline stream
  let line := p.1.dropLast
  (if line.all (· < 128) then
      match uDecode line with
      | some decoded => if decoded.all (· < 256) then some decoded else none
      | none => none
    else none, p.2)

theorem uDecode_cons_notbs (c : Nat) (rest : List Nat) (hc : c ≠ 92) :
    uDecode (c :: rest) = (uDecode rest).map (c :: ·) := by
  rw [uDecode.eq_def]
  simp [hc]

theorem uDecode_octalEscape (b : Nat) (hb : b < 256) (rest : List Nat) :
    uDecode (octalEscape b ++ rest) = (uDecode rest).map (b :: ·) := by
  have h1 : isOctDigit (48 + b / 64 % 8) = true := by
    simp only [isOctDigit, Bool.and_eq_true, decide_eq_true_eq]
    omega
  have h2 : isOctDigit (48 + b / 8 % 8) = true := by
    simp only [isOctDigit, Bool.and_eq_true, decide_eq_true_eq]
    omega
  have h3 : isOctDigit (48 + b % 8) = true := by
    simp only [isOctDigit, Bool.and_eq_true, decide_eq_true_eq]
    omega
  have hval : b / 64 % 8 * 64 + b / 8 % 8 * 8 + b % 8 = b := by
    omega
  simp only [octalEscape, List.cons_append, List.nil_append]
  rw [uDecode.eq_def]
  simp [h1, h2, h3, hval]

theorem uDecode_escapeByte (b : Nat) (hb : b < 256) (hbs : b ≠ 92)
    (rest : List Nat) :
    uDecode (escapeByte b ++ rest) = (uDecode rest).map (b :: ·) := by
  unfold escapeByte
  by_cases hp : pyPrintable b = true
  · rw [if_pos hp, List.singleton_append]
    exact uDecode_cons_notbs b rest hbs
  · rw [if_neg hp]
    exact uDecode_octalEscape b hb rest

theorem uDecode_write_string_line (value : List Nat)
    (hb : ∀ b ∈ value, b < 256) (hbs : (92 : Nat) ∉ value) :
    uDecode (write_string_line value) = some value := by
  induction value with
  | nil => simp [write_string_line, uDecode]
  | cons b rest ih =>
    rw [write_string_line, List.flatMap_cons, ← write_string_line]
    rw [uDecode_escapeByte b (hb b (by simp)) (by intro hbe; exact hbs (by simp [hbe]))]
    rw [ih (fun x hx => hb x (by simp [hx])) (fun hx => hbs (by simp [hx]))]
    rfl

theorem escapeByte_lt128 (b : Nat) (hb : b < 256) :
    ∀ c ∈ escapeByte b, c < 128 := by
  unfold escapeByte
  by_cases hp : pyPrintable b = true
  · rw [if_pos hp]
    intro c hc
    simp only [List.mem_singleton] at hc
    simp only [pyPrintable, Bool.or_eq_true, Bool.and_eq_true, decide_eq_true_eq,
      beq_iff_eq] at hp
    omega
  · rw [if_neg hp]
    intro c hc
    simp only [octalEscape, List.mem_cons, List.not_mem_nil, or_false] at hc
    rcases hc with h | h | h | h <;> omega

theorem escapeByte_no_newline (b : Nat) (hbnl : b ≠ 10) :
    (10 : Nat) ∉ escapeByte b := by
  unfold escapeByte
  by_cases hp : pyPrintable b = true
  · rw [if_pos hp]
    simp only [List.mem_singleton]
    omega
  · rw [if_neg hp]
    simp only [octalEscape, List.mem_cons, List.not_mem_nil, or_false]
    omega

theorem readline_of_no_newline (line : List Nat) (h : (10 : Nat) ∉ line)
    (rest : List Nat) :
    readline (line ++ 10 :: rest) = (line ++ [10], rest) := by
  induction line with
  | nil => simp [readline]
  | cons c cs ih =>
    have hc : c ≠ 10 := fun hc => h (by simp [hc])
    have ih2 := ih (fun hx => h (by simp [hx]))
    simp [readline, hc, ih2]

/-- The claim's full write-then-read composition fails on byte strings
containing a backslash: the two bytes `b"\\n"` (0x5c 0x6e) are written
verbatim as the two printable characters `\` and `n`, which
`unicode_escape` reads back as the single newline byte 0x0a. -/
theorem write_parse_string_counterexample :
    parse_string ((write_string [92, 110]).2 ++ []) = (some [10], []) ∧
    some [(10 : Nat)] ≠ some [92, 110] := by
  constructor
  · simp [parse_string, write_string, write_string_line, escapeByte, pyPrintable,
      readline, uDecode, isOctDigit]
  · simp

/-- C3 (amended): `write_string` emits the byte length of the raw string
and one line in which every non-printable byte is a C-style 3-digit
octal escape; for every byte string containing neither a backslash
(0x5c) nor a newline (0x0a) — bytes that the writer emits verbatim but
that the reader re-interprets as an escape introducer resp. as the line
terminator — `parse_string` decodes the written line back to exactly the
original bytes, leaving the rest of the stream untouched. -/
theorem write_parse_string_roundtrip (value : List Nat)
    (hb : ∀ b ∈ value, b < 256) (hbs : (92 : Nat) ∉ value)
    (hnl : (10 : Nat) ∉ value) (rest : List Nat) :
    (write_string value).1 = value.length ∧
    (write_string value).2 = value.flatMap escapeByte ++ [10] ∧
    parse_string ((write_string value).2 ++ rest) = (some value, rest) := by
  refine ⟨rfl, rfl, ?_⟩
  have hline10 : (10 : Nat) ∉ write_string_line value := by
    rw [write_string_line]
    intro hmem
    rw [List.mem_flatMap] at hmem
    obtain ⟨b, hbv, hbe⟩ := hmem
    exact escapeByte_no_newline b (fun h => hnl (h ▸ hbv)) hbe
  show parse_string ((write_string_line value ++ [10]) ++ rest) = (some value, rest)
  rw [parse_string]
  rw [List.append_assoc, List.singleton_append,
    readline_of_no_newline (write_string_line value) hline10 rest]
  simp only [List.dropLast_concat]
  have hascii : (write_string_line value).all (· < 128) = true := by
    rw [List.all_eq_true]
    intro c hc
    rw [write_string_line, List.mem_flatMap] at hc
    obtain ⟨b, hbv, hbe⟩ := hc
    simpa using escapeByte_lt128 b (hb b hbv) c hbe
  rw [if_pos hascii, uDecode_write_string_line value hb hbs]
  have hval : value.all (· < 256) = true := by
    rw [List.all_eq_true]
    intro c hc
    simpa using hb c hc
  simp [hval]

theorem write_parse_string_roundtrip_witness :
    parse_string ((write_string [104, 105, 200]).2 ++ [65]) =
      (some [104, 105, 200], [65]) :=
  (write_parse_string_roundtrip [104, 105, 200] (by decide) (by decide)
    (by decide) [65]).2.2

/-!
### Format-version feature gating (C4)

`convert_to_r_data` (to_r.py lines 438–480) is embedded below.  The
unparser that serializes an `RData` (rdata/unparser/_base) is not among
the sources under verification; its version gate is therefore modelled
from the spec.
-/

/-- `R_MINIMUM_VERSIONS` (to_r.py lines 61–64). -/
def R_MINIMUM_VERSIONS (fv : Nat) : Option Nat :=
  if fv = 2 then some 0x20300 else if fv = 3 then some 0x30500 else none

/-- `DEFAULT_FORMAT_VERSION` (to_r.py line 57). -/
def DEFAULT_FORMAT_VERSION : Nat := 3

/-- `R_MINIMUM_VERSION_WITH_ENCODING` (to_r.py line 65). -/
def R_MINIMUM_VERSION_WITH_ENCODING : Nat := 3

/-- `R_MINIMUM_VERSION_WITH_ALTREP` (to_r.py line 66). -/
def R_MINIMUM_VERSION_WITH_ALTREP : Nat := 3

/-- The `file_type` argument of `convert_to_r_data`. -/
inductive FileType where
  | rds
  | rda
deriving DecidableEq, Repr

/-- `ConverterFromPythonToR.convert_to_r_data` (to_r.py lines 438–480),
utf-8 session: convert the value (as an attribute pairlist for rda
files, requiring a dictionary), build the versions triple, and attach
the "UTF-8" encoding label exactly when the format version is ≥ 3. -/
def convert_to_r_data (fuel : Nat) (st : ConverterState) (data : PyValue)
    (file_type : FileType) : Except Err RData := do
  let (r_object, _) ←
    match file_type with
    | .rda =>
      match data with
      | .pyDict entries => convert_to_r_attributes fuel st entries
      | _ => .error (.typeError "for RDA file, data must be a dictionary")
    | .rds => convert_to_r_object fuel st data
  let minimum ←
    match R_MINIMUM_VERSIONS st.format_version with
    | some m => Except.ok m
    | none => .error (.valueError "KeyError")
  let versions : RVersions :=
    ⟨st.format_version, st.r_version_serialized, minimum⟩
  let extra : RExtraInfo :=
    if R_MINIMUM_VERSION_WITH_ENCODING ≤ versions.format then ⟨some "UTF-8"⟩
    else ⟨none⟩
  .ok ⟨versions, extra, r_object⟩

mutual

/-- Does the graph contain a compact-representation (ALTREP) node? -/
def hasAltrep : RObject → Bool
  | .mk info v a t r =>
    info.type == RObjectType.ALTREP || hasAltrepV v || hasAltrepO a ||
      hasAltrepO t || hasAltrepO r

def hasAltrepO : Option RObject → Bool
  | none => false
  | some o => hasAltrep o

def hasAltrepV : RValue → Bool
  | .vObj o => hasAltrep o
  | .vObjs xs => hasAltrepL xs
  | .vPair car cdr => hasAltrep car || hasAltrep cdr
  | .vAltrep d s a => hasAltrep d || hasAltrep s || hasAltrep a
  | _ => false

def hasAltrepL : List RObject → Bool
  | [] => false
  | x :: xs => hasAltrep x || hasAltrepL xs

end

/-- Modelled from the spec: the unparser (`rdata/unparser/_base`, not
under `src/`) must, per §6, fail "with an unsupported-feature error if
asked to emit a feature illegal at the given `versions.format` (explicit
encoding label or compact representation at format 2)" (compact
representations and encoding labels require format ≥ 3 per §3).  This
is the version-legality check of `unparse_r_data`; byte emission itself
is outside the model. -/
def unparse_feature_gate (rd : RData) : Except Err Unit :=
  if rd.versions.format < 3 ∧ rd.extra.encoding.isSome then
    .error (.unsupportedFeature "encoding requires format version 3")
  else if rd.versions.format < 3 ∧ hasAltrep rd.object then
    .error (.unsupportedFeature "compact representation requires format version 3")
  else
    .ok ()

/-- C4: unparsing an `RData` whose graph contains a
compact-representation node, or whose extra info carries an explicit
text-encoding label, fails with an unsupported-feature error at format
version 2, while the identical graph passes the feature gate at format
version 3. -/
theorem unparse_version_gating (versions2 : RVersions) (extra : RExtraInfo)
    (obj : RObject) :
    (versions2.format = 2 →
      (hasAltrep obj = true ∨ extra.encoding.isSome = true) →
      ∃ msg, unparse_feature_gate ⟨versions2, extra, obj⟩ =
        .error (.unsupportedFeature msg)) ∧
    (versions2.format = 3 →
      unparse_feature_gate ⟨versions2, extra, obj⟩ = .ok ()) := by
  constructor
  · intro hfv hbad
    unfold unparse_feature_gate
    by_cases henc : extra.encoding.isSome = true
    · exact ⟨_, by rw [if_pos ⟨by simp [hfv], henc⟩]⟩
    · have halt : hasAltrep obj = true := by
        rcases hbad with h | h
        · exact h
        · exact absurd h henc
      exact ⟨"compact representation requires format version 3",
        by rw [if_neg (by simp [henc]), if_pos ⟨by simp [hfv], halt⟩]⟩
  · intro hfv
    unfold unparse_feature_gate
    rw [if_neg (by simp [hfv]), if_neg (by simp [hfv])]

theorem unparse_version_gating_witness :
    (∃ msg, unparse_feature_gate
      ⟨⟨2, 0x40201, 0x20300⟩, ⟨none⟩,
        RObject.mk ⟨RObjectType.ALTREP, false, false, false, 0, 0⟩
          RValue.vNone none none none⟩ =
      .error (.unsupportedFeature msg)) ∧
    unparse_feature_gate
      ⟨⟨3, 0x40201, 0x30500⟩, ⟨none⟩,
        RObject.mk ⟨RObjectType.ALTREP, false, false, false, 0, 0⟩
          RValue.vNone none none none⟩ = .ok () :=
  ⟨(unparse_version_gating ⟨2, 0x40201, 0x20300⟩ ⟨none⟩
      (RObject.mk ⟨RObjectType.ALTREP, false, false, false, 0, 0⟩
        RValue.vNone none none none)).1 rfl
      (Or.inl (by simp [hasAltrep, hasAltrepV, hasAltrepO])),
    (unparse_version_gating ⟨3, 0x40201, 0x30500⟩ ⟨none⟩
      (RObject.mk ⟨RObjectType.ALTREP, false, false, false, 0, 0⟩
        RValue.vNone none none none)).2 rfl⟩

end RDataSpec
